import Mathlib

/-!
Verification of the `oracle_core` package of the `ollama-cli-oracle`
repository: a shallow embedding, over `List Char`, of
`oracle_core/llm_providers.py`, `oracle_core/search_utils.py` and
`oracle_core/oracle.py`, together with theorems settling the spec claims.

External services (the Ollama / LM Studio chat endpoints and the
search-engine scraper backends) are modelled as function parameters
returning `Except`, where `Except.error` stands for a raised exception
and `Except.ok` for a normal return.  Machine-level details (HTTP, JSON)
are outside the embedded core, exactly as the spec scopes them out.
-/

namespace OracleCore

/-- Python strings are modelled as lists of characters. -/
abbrev Str := List Char

/-- Coerce a Lean string literal to the `Str` model. -/
def str (s : String) : Str := s.data

/-- Python `str.isspace` class used by `str.strip()` and the regex `\s`:
space, tab, newline, carriage return, vertical tab, form feed
(ASCII fragment; the scraped text in this code base is handled as ASCII). -/
def isPySpace (c : Char) : Bool :=
  c = ' ' || c = '\t' || c = '\n' || c = '\r' || c = '\x0b' || c = '\x0c'

/-- Python `s.strip()`: drop leading and trailing whitespace. -/
def pyStrip (s : Str) : Str :=
  ((s.dropWhile isPySpace).reverse.dropWhile isPySpace).reverse

/-- ASCII lower-casing of one character (model of `re.IGNORECASE` folding
for the ASCII tags used in this code base). -/
def lowerChar (c : Char) : Char := c.toLower

/-- Lower-case a whole string. -/
def lowerStr (s : Str) : Str := s.map lowerChar

/-- `startsWith pat s`: `s` begins with `pat`. -/
def startsWith (pat s : Str) : Bool := s.take pat.length == pat

/-- `endsWith pat s`: `s` ends with `pat`. -/
def endsWith (pat s : Str) : Bool := startsWith pat.reverse s.reverse

/-- Split `s` at the first (leftmost) occurrence of `pat`:
`findSplit pat s = some (pre, post)` iff `s = pre ++ pat ++ post` with the
occurrence as far left as possible; `none` if `pat` does not occur. -/
def findSplit (pat : Str) : Str → Option (Str × Str)
  | [] => if startsWith pat [] then some ([], []) else none
  | c :: rest =>
    if startsWith pat (c :: rest) then some ([], (c :: rest).drop pat.length)
    else
      match findSplit pat rest with
      | some (pre, post) => some (c :: pre, post)
      | none => none

/-- Python `pat in s` (substring containment). -/
def containsStr (pat s : Str) : Bool := (findSplit pat s).isSome

/-- One conversation message `{'role': ..., 'content': ...}`. -/
structure Message where
  role : Str
  content : Str
deriving DecidableEq

/-- The external chat backends of `llm_providers.call_llm`: the Ollama
daemon and the LM Studio endpoint.  Each takes the model name and the
message list; `Except.error e` models a raised exception with text `e`. -/
structure LLMWorld where
  ollamaChat : Str → List Message → Except Str Str
  lmStudioChat : Str → List Message → Except Str Str

/-- The opening internal-reasoning marker of `call_llm`. -/
def thinkOpen : Str := str "<think>"

/-- The closing internal-reasoning marker of `call_llm`. -/
def thinkClose : Str := str "</think>"

/-- Fueled worker for `re.sub(r"<think>.*?</think>", "", s, flags=re.DOTALL)`:
repeatedly find the leftmost `<think>`, the nearest following `</think>`,
drop the delimited span, and continue after it; if either marker is
missing, the remaining text is left untouched (the non-greedy pattern
has no further match).  Fuel `s.length` always suffices since every step
removes at least the two markers. -/
def removeThinkAux : Nat → Str → Str
  | 0, s => s
  | fuel + 1, s =>
    match findSplit thinkOpen s with
    | none => s
    | some (pre, rest1) =>
      match findSplit thinkClose rest1 with
      | none => s
      | some (_, rest2) => pre ++ removeThinkAux fuel rest2

/-- Removal of every `<think>...</think>` span (leftmost, non-greedy,
spanning newlines), as performed by `call_llm` on raw model output. -/
def removeThink (s : Str) : Str := removeThinkAux s.length s

/-- The post-processing of `call_llm`: remove reasoning spans, then
`.strip()`. -/
def cleanLLM (s : Str) : Str := pyStrip (removeThink s)

/-- `llm_providers.call_llm`: dispatch on the provider string; a backend
exception is swallowed into an error text that is returned as content;
an unknown provider raises `ValueError` (modelled as `Except.error`). -/
def call_llm (w : LLMWorld) (messages : List Message) (model_name provider : Str) :
    Except Str Str :=
  if provider = str "ollama" then
    Except.ok (cleanLLM
      (match w.ollamaChat model_name messages with
       | Except.ok c => c
       | Except.error e => str "Error communicating with Ollama: " ++ e))
  else if provider = str "lm_studio" then
    Except.ok (cleanLLM
      (match w.lmStudioChat model_name messages with
       | Except.ok c => c
       | Except.error e => str "Error communicating with LM Studio: " ++ e))
  else
    Except.error (str "Unsupported LLM provider: " ++ provider)

/-- `EVALUATION_PROMPT_TEMPLATE.format(question=..., response=...)` of
`submit_for_evaluation`, split at the two interpolation points. -/
def evalPrompt (question response : Str) : Str :=
  str "You are an AI assistant tasked with evaluating the quality of an answer provided to a given question.\n\nQuestion:\n"
  ++ question
  ++ str "\n\nAnswer:\n"
  ++ response
  ++ str "\n\nBased on the Question and Answer:\n1. Is the Answer accurate and factually correct based on general knowledge?\n2. Is the Answer relevant to the Question and does it directly address what was asked?\n3. Is the Answer clear, concise, and easy to understand?\n4. Does the Answer avoid significant ambiguity or oversimplification for the likely context of the question?\n\nConsidering these criteria, especially accuracy and relevance, provide your assessment.\nConclude your response with either \"[Yes]\" if the answer is satisfactory, or \"[No]\" if it is not, on a new line by itself.\nExample:\nThe answer seems mostly correct but misses a key detail.\n[No]\n\nAnother Example:\nThe answer is clear, accurate, and directly addresses the question.\n[Yes]\n"

/-- Left-to-right scan of `re.search(r"\[(Yes|No)\]\s*$", t, re.IGNORECASE)`:
at each position try `[Yes]` then `[No]`, requiring everything after the
tag to be whitespace-to-end; return the group of the leftmost match. -/
def tagSearch : Str → Option Bool
  | [] => none
  | c :: rest =>
    if startsWith (str "[yes]") (lowerStr (c :: rest)) && ((c :: rest).drop 5).all isPySpace then
      some true
    else if startsWith (str "[no]") (lowerStr (c :: rest)) && ((c :: rest).drop 4).all isPySpace then
      some false
    else tagSearch rest

/-- Verdict parsing of `submit_for_evaluation`: strip the evaluation
output, search for the bracketed tag at the end, and default to `false`
(insufficient) when no tag is found. -/
def parseVerdict (content : Str) : Bool :=
  match tagSearch (pyStrip content) with
  | some b => b
  | none => false

/-- `llm_providers.submit_for_evaluation`. -/
def submit_for_evaluation (w : LLMWorld) (question response model_name provider : Str) :
    Except Str Bool :=
  match call_llm w [{ role := str "user", content := evalPrompt question response }]
          model_name provider with
  | Except.error e => Except.error e
  | Except.ok content => Except.ok (parseVerdict content)

/-- The query-refinement prompt of `refactor_search_input`. -/
def refactorPrompt (user_input : Str) : Str :=
  str "You are an expert at crafting effective search engine queries.\nUser\x27s information request: \""
  ++ user_input
  ++ str "\"\n\n1. Identify the key entities, concepts, and intent in the user\x27s request.\n2. Formulate a single, concise, and highly effective search query that is likely to yield the most relevant results for this request.\n3. Output *only* the optimized search query itself, without any preamble, labels, or explanation.\n\nOptimized Search Query:"

/-- Fueled model of `s.split(sep)[-1]`: the text after the last
occurrence of the separator (the whole string if it never occurs). -/
def afterLastAux (sep : Str) : Nat → Str → Str
  | 0, s => s
  | fuel + 1, s =>
    match findSplit sep s with
    | none => s
    | some (_, post) => afterLastAux sep fuel post

/-- `s.split("Optimized Search Query:")[-1]`. -/
def afterLabel (s : Str) : Str := afterLastAux (str "Optimized Search Query:") s.length s

/-- `llm_providers.refactor_search_input`. -/
def refactor_search_input (w : LLMWorld) (user_input model_name provider : Str) :
    Except Str Str :=
  match call_llm w [{ role := str "user", content := refactorPrompt user_input }]
          model_name provider with
  | Except.error e => Except.error e
  | Except.ok refactored_query =>
    Except.ok (pyStrip
      (if containsStr (str "Optimized Search Query:") refactored_query then
        afterLabel refactored_query
      else refactored_query))

/-- The grounded-synthesis prompt of `process_search_result_with_llm`. -/
def processPrompt (information_needed search_result : Str) : Str :=
  str "You have been provided with a summary of information gathered from web search results. Your task is to use this summary to directly answer the user\x27s original query.\n\nUser\x27s Original Query: \""
  ++ information_needed
  ++ str "\"\n\nSummary of Web Search Results:\n"
  ++ search_result
  ++ str "\n\nBased *only* on the provided \"Summary of Web Search Results\", formulate a clear, concise, and direct answer to the \"User\x27s Original Query\".\nDo not add any information that is not present in the summary.\nIf the summary does not contain enough information to answer the query, explicitly state that the summary does not provide a sufficient answer.\nYour final output should be just the answer to the query.\n"

/-- `llm_providers.process_search_result_with_llm`. -/
def process_search_result_with_llm (w : LLMWorld)
    (search_result information_needed model_name provider : Str) : Except Str Str :=
  call_llm w [{ role := str "user", content := processPrompt information_needed search_result }]
    model_name provider

/-- The truncation marker appended by `summarize_search_results`. -/
def truncMarker : Str := str "\n... [Results Truncated] ..."

/-- The (possibly truncated) search-results text that
`summarize_search_results` embeds in its prompt and uses in its fallback. -/
def summarizeInput (search_results_text : Str) (max_length : Nat) : Str :=
  if max_length < search_results_text.length then
    search_results_text.take max_length ++ truncMarker
  else search_results_text

/-- `SUMMARIZATION_PROMPT_TEMPLATE.format(query=query)`. -/
def summTemplate (query : Str) : Str :=
  str "You are provided with a series of search result snippets, each potentially containing a title, URL, and snippet text, formatted like:\nSource [Number]:\nTitle: [Title of the page]\nURL: [URL of the page]\nSnippet: [Text snippet from the page]\n---\n\nOriginal User Query: \""
  ++ query
  ++ str "\"\n\nReview all the provided search result snippets. Extract and synthesize the information that is most relevant to answering the Original User Query.\nProvide a concise, consolidated summary of the key findings. Focus on information that directly addresses the query.\nAvoid making up information not present in the text. If multiple sources provide similar information, synthesize it.\nIf sources provide conflicting information, you may note that.\nYour summary should be a coherent text, not just a list of facts.\n"

/-- `full_summarization_prompt` of `summarize_search_results`. -/
def summarizePrompt (search_results_text query : Str) (max_length : Nat) : Str :=
  summTemplate query ++ str "\n\nSearch Results to Summarize:\n"
  ++ summarizeInput search_results_text max_length

/-- `llm_providers.summarize_search_results`: truncate, prompt, and on a
raised generation call fall back to the first 500 characters of the
(truncated) input text; the function itself never raises. -/
def summarize_search_results (w : LLMWorld)
    (search_results_text query model_name provider : Str) (max_length : Nat) : Str :=
  match call_llm w [{ role := str "user",
                      content := summarizePrompt search_results_text query max_length }]
          model_name provider with
  | Except.ok summary => summary
  | Except.error _ =>
    if 500 < (summarizeInput search_results_text max_length).length then
      (summarizeInput search_results_text max_length).take 500 ++ str "..."
    else summarizeInput search_results_text max_length

/-- One raw result of the search-engines scraper, a dict whose relevant
keys are modelled as optional fields (`none` = key absent). -/
structure SearchItem where
  title : Option Str
  text : Option Str
  snippet : Option Str
  link : Option Str
  url : Option Str
deriving DecidableEq

/-- The five search backends known to `search_on_the_web`. -/
inductive Engine where
  | google
  | bing
  | yahoo
  | duckduckgo
  | brave
deriving DecidableEq

/-- The engine-selection `if`/`elif` chain of `search_on_the_web`:
unknown names silently fall back to Google. -/
def selectEngine (search_engine_name : Str) : Engine :=
  if search_engine_name = str "google" then Engine.google
  else if search_engine_name = str "bing" then Engine.bing
  else if search_engine_name = str "yahoo" then Engine.yahoo
  else if search_engine_name = str "duckduckgo" then Engine.duckduckgo
  else if search_engine_name = str "brave" then Engine.brave
  else Engine.google

/-- The external scraper: `engine.search(query=..., pages=...)`;
`Except.error` models a raised exception. -/
structure SearchWorld where
  search : Engine → Str → Nat → Except Str (List SearchItem)

/-- `NUM_OF_PAGES` of `search_on_the_web`. -/
def NUM_OF_PAGES : Nat := 2

/-- `item.get('title', 'No title')`. -/
def itemTitle (it : SearchItem) : Str := it.title.getD (str "No title")

/-- `item.get('text', item.get('snippet', 'No snippet'))`. -/
def itemSnippet (it : SearchItem) : Str := it.text.getD (it.snippet.getD (str "No snippet"))

/-- `item.get('link', item.get('url', 'No URL'))`. -/
def itemLink (it : SearchItem) : Str := it.link.getD (it.url.getD (str "No URL"))

/-- The retention test `if snippet and snippet != 'No snippet'`. -/
def retained (it : SearchItem) : Bool :=
  !(itemSnippet it).isEmpty && itemSnippet it ≠ str "No snippet"

/-- The per-item block
`f"Source {i+1}:\nTitle: {title}\nURL: {link}\nSnippet: {snippet}\n---"`,
where `i` is the item's index in the raw result list. -/
def formatItem (i : Nat) (it : SearchItem) : Str :=
  str "Source " ++ Nat.toDigits 10 (i + 1) ++ str ":\nTitle: " ++ itemTitle it
  ++ str "\nURL: " ++ itemLink it ++ str "\nSnippet: " ++ itemSnippet it ++ str "\n---"

/-- The `for i, item in enumerate(search_items)` loop building
`results_list`: keep, in order, the formatted blocks of retained items. -/
def formatLoop (i : Nat) : List SearchItem → List Str
  | [] => []
  | it :: rest =>
    if retained it then formatItem i it :: formatLoop (i + 1) rest
    else formatLoop (i + 1) rest

/-- `search_utils.search_on_the_web`: select the engine, run the scraper,
and return either the formatted blocks joined by blank lines or one of
the three sentinel failure texts; exceptions never reach the caller. -/
def search_on_the_web (sw : SearchWorld) (query search_engine_name : Str) : Str :=
  match sw.search (selectEngine search_engine_name) query NUM_OF_PAGES with
  | Except.error _ =>
    str "Not able to receive search service: " ++ search_engine_name
    ++ str " results due to an error. Query: \x27" ++ query ++ str "\x27"
  | Except.ok search_items =>
    if search_items.isEmpty then
      str "No results found by " ++ search_engine_name
      ++ str " for the query: \x27" ++ query ++ str "\x27"
    else if (formatLoop 0 search_items).isEmpty then
      str "Search returned results, but no usable text content (title, snippet, link) could be extracted for query: \x27"
      ++ query ++ str "\x27 with " ++ search_engine_name ++ str "."
    else
      List.intercalate (str "\n\n") (formatLoop 0 search_items)

/-- The `Oracle` instance state: configuration plus `self.messages`. -/
structure OracleState where
  model_name : Str
  llm_provider : Str
  search_engine : Option Str
  messages : List Message
deriving DecidableEq

/-- `Oracle.get_response`: append the user turn, get the direct answer,
optionally evaluate and augment via search, append the final answer as
the assistant turn, and return it with the updated state.  `Except.error`
models an exception escaping to the caller. -/
def get_response (w : LLMWorld) (sw : SearchWorld) (o : OracleState) (user_prompt : Str) :
    Except Str (Str × OracleState) :=
  match call_llm w (o.messages ++ [{ role := str "user", content := user_prompt }])
          o.model_name o.llm_provider with
  | Except.error e => Except.error e
  | Except.ok llm_response_content =>
    match o.search_engine with
    | none =>
      Except.ok (llm_response_content,
        { o with messages := o.messages
            ++ [{ role := str "user", content := user_prompt },
                { role := str "assistant", content := llm_response_content }] })
    | some se =>
      match submit_for_evaluation w user_prompt llm_response_content
              o.model_name o.llm_provider with
      | Except.error e => Except.error e
      | Except.ok is_sufficient =>
        if is_sufficient then
          Except.ok (llm_response_content,
            { o with messages := o.messages
                ++ [{ role := str "user", content := user_prompt },
                    { role := str "assistant", content := llm_response_content }] })
        else
          match refactor_search_input w user_prompt o.model_name o.llm_provider with
          | Except.error e => Except.error e
          | Except.ok optimized_query =>
            match
              (if containsStr (str "Not able to receive search service")
                    (search_on_the_web sw optimized_query se)
                  || containsStr (str "No results found")
                    (search_on_the_web sw optimized_query se)
                  || containsStr (str "no text content could be extracted")
                    (search_on_the_web sw optimized_query se) then
                Except.ok llm_response_content
              else
                process_search_result_with_llm w
                  (summarize_search_results w (search_on_the_web sw optimized_query se)
                    user_prompt o.model_name o.llm_provider 1500)
                  user_prompt o.model_name o.llm_provider) with
            | Except.error e => Except.error e
            | Except.ok final_answer =>
              Except.ok (final_answer,
                { o with messages := o.messages
                    ++ [{ role := str "user", content := user_prompt },
                        { role := str "assistant", content := final_answer }] })

/-! ### Concrete fixtures used to exercise the embedded code -/

/-- Two LLM worlds agree on one message list when both backends return
the same thing for it, whatever the model name. -/
def agreeOn (w w' : LLMWorld) (msgs : List Message) : Prop :=
  ∀ mn, w.ollamaChat mn msgs = w'.ollamaChat mn msgs
    ∧ w.lmStudioChat mn msgs = w'.lmStudioChat mn msgs

/-- A world whose backends always answer with the fixed text `c`. -/
def constWorld (c : Str) : LLMWorld :=
  { ollamaChat := fun _ _ => Except.ok c
    lmStudioChat := fun _ _ => Except.ok c }

/-- A world answering `x` on every one-message request and `y` otherwise;
it agrees with `constWorld (str "x")` on all single-message lists. -/
def singletonWorld : LLMWorld :=
  { ollamaChat := fun _ msgs => Except.ok (if msgs.length = 1 then str "x" else str "y")
    lmStudioChat := fun _ msgs => Except.ok (if msgs.length = 1 then str "x" else str "y") }

/-- Canned per-stage responses, dispatching on the first 13 characters of
the incoming prompt (each pipeline stage starts its prompt differently). -/
def respondTo (c : Str) : Str :=
  if c.take 13 = str "You are an AI" then str "bad.\n[No]"
  else if c.take 13 = str "You are an ex" then str "refined"
  else if c.take 13 = str "You are provi" then str "summary-out"
  else if c.take 13 = str "You have been" then str "synth-out"
  else str "direct-answer"

/-- A deterministic Ollama-style world built on `respondTo`. -/
def stubWorld : LLMWorld :=
  { ollamaChat := fun _ msgs =>
      Except.ok (respondTo ((msgs.headD { role := str "user", content := [] }).content))
    lmStudioChat := fun _ _ => Except.ok [] }

/-- A retrieval backend returning one raw item that carries only a title
(no snippet, so nothing survives filtering). -/
def stubSearchNoSnippet : SearchWorld :=
  { search := fun _ _ _ =>
      Except.ok [{ title := some (str "T"), text := none, snippet := none,
                   link := none, url := none }] }

/-- A retrieval backend returning zero raw items. -/
def stubSearchEmpty : SearchWorld :=
  { search := fun _ _ _ => Except.ok [] }

/-- A retrieval backend whose scraper raises. -/
def stubSearchRaise : SearchWorld :=
  { search := fun _ _ _ => Except.error (str "boom") }

/-- A retained item (it carries a `text` snippet). -/
def itemWithSnippet : SearchItem :=
  { title := some (str "T1"), text := some (str "S1"), snippet := none,
    link := some (str "L1"), url := none }

/-- A dropped item (no `text` and no `snippet` key). -/
def itemNoSnippet : SearchItem :=
  { title := some (str "T2"), text := none, snippet := none,
    link := none, url := some (str "U2") }

/-- A retrieval backend returning one retained and one dropped item. -/
def stubSearchMixed : SearchWorld :=
  { search := fun _ _ _ => Except.ok [itemWithSnippet, itemNoSnippet] }

/-- A session configured for Ollama plus Google search, empty history. -/
def stubOracleSearch : OracleState :=
  { model_name := str "m", llm_provider := str "ollama",
    search_engine := some (str "google"), messages := [] }

/-- A session configured for Ollama with search disabled, empty history. -/
def stubOracleNoSearch : OracleState :=
  { model_name := str "m", llm_provider := str "ollama",
    search_engine := none, messages := [] }

/-- The state `stubOracleNoSearch` reaches after one turn on `"hi"`. -/
def stubOracleNoSearchFinal : OracleState :=
  { model_name := str "m", llm_provider := str "ollama",
    search_engine := none,
    messages := [{ role := str "user", content := str "hi" },
                 { role := str "assistant", content := str "direct-answer" }] }

/-! ### Basic lemmas about the string utilities -/

theorem startsWith_iff (pat s : Str) : startsWith pat s = true ↔ ∃ t, s = pat ++ t := by
  constructor
  · intro h
    have h' : s.take pat.length = pat := by
      simpa [startsWith] using h
    exact ⟨s.drop pat.length, by conv_lhs => rw [← List.take_append_drop pat.length s, h']⟩
  · rintro ⟨t, rfl⟩
    simp [startsWith, List.take_left]

theorem endsWith_iff (pat s : Str) : endsWith pat s = true ↔ ∃ u, s = u ++ pat := by
  unfold endsWith
  rw [startsWith_iff]
  constructor
  · rintro ⟨t, ht⟩
    refine ⟨t.reverse, ?_⟩
    have := congrArg List.reverse ht
    simpa using this
  · rintro ⟨u, rfl⟩
    exact ⟨u.reverse, by simp⟩

theorem findSplit_eq (pat s pre post : Str) (h : findSplit pat s = some (pre, post)) :
    s = pre ++ pat ++ post := by
  induction s generalizing pre post with
  | nil =>
    unfold findSplit at h
    by_cases hp : startsWith pat [] = true
    · obtain ⟨t, ht⟩ := (startsWith_iff pat []).1 hp
      have hpat : pat = [] := by
        cases pat with
        | nil => rfl
        | cons a l => simp at ht
      simp only [hp, if_true] at h
      obtain ⟨rfl, rfl⟩ := Prod.mk.injEq .. ▸ (Option.some.injEq .. ▸ h)
      simp [hpat]
    · simp only [hp] at h
      simp at h
  | cons c rest ih =>
    unfold findSplit at h
    by_cases hp : startsWith pat (c :: rest) = true
    · simp only [hp, if_true] at h
      obtain ⟨t, ht⟩ := (startsWith_iff pat (c :: rest)).1 hp
      have hdrop : (c :: rest).drop pat.length = t := by
        rw [ht, List.drop_left]
      rw [hdrop] at h
      obtain ⟨h1, h2⟩ := Prod.mk.injEq .. ▸ (Option.some.injEq .. ▸ h)
      subst h1; subst h2
      simpa using ht
    · simp only [hp, if_false, Bool.false_eq_true] at h
      cases hrec : findSplit pat rest with
      | none => rw [hrec] at h; simp at h
      | some pr =>
        obtain ⟨pre', post'⟩ := pr
        rw [hrec] at h
        obtain ⟨h1, h2⟩ := Prod.mk.injEq .. ▸ (Option.some.injEq .. ▸ h)
        have := ih pre' post' hrec
        subst h2
        rw [← h1, this]
        simp

theorem contains_of_startsWith (pat s : Str) (h : startsWith pat s = true) :
    containsStr pat s = true := by
  cases s with
  | nil =>
    unfold containsStr findSplit
    simp [h]
  | cons c rest =>
    unfold containsStr findSplit
    simp [h]

theorem contains_cons (pat s : Str) (c : Char) (h : containsStr pat s = true) :
    containsStr pat (c :: s) = true := by
  unfold containsStr findSplit
  by_cases hp : startsWith pat (c :: s) = true
  · simp [hp]
  · simp only [hp, if_false, Bool.false_eq_true]
    unfold containsStr at h
    cases hrec : findSplit pat s with
    | none => rw [hrec] at h; simp at h
    | some pr => simp [hrec]

theorem contains_parts (pat a b : Str) : containsStr pat (a ++ pat ++ b) = true := by
  induction a with
  | nil =>
    apply contains_of_startsWith
    rw [startsWith_iff]
    exact ⟨b, by simp⟩
  | cons c a' ih =>
    have : (c :: a') ++ pat ++ b = c :: (a' ++ pat ++ b) := by simp
    rw [this]
    exact contains_cons _ _ _ ih

theorem contains_append_right (pat a t : Str) (h : containsStr pat a = true) :
    containsStr pat (a ++ t) = true := by
  unfold containsStr at h
  cases hs : findSplit pat a with
  | none => rw [hs] at h; simp at h
  | some pr =>
    obtain ⟨pre, post⟩ := pr
    have := findSplit_eq pat a pre post hs
    rw [this]
    have : pre ++ pat ++ post ++ t = pre ++ pat ++ (post ++ t) := by simp
    rw [this]
    exact contains_parts pat pre (post ++ t)

/-- If `pat` has no occurrence before position `|a|` (equivalently, no
occurrence inside `a ++ pat.dropLast`), then `findSplit` splits
`a ++ pat ++ b` exactly at the explicit occurrence. -/
theorem findSplit_at (pat a b : Str) (hpat : pat ≠ [])
    (h : containsStr pat (a ++ pat.dropLast) = false) :
    findSplit pat (a ++ pat ++ b) = some (a, b) := by
  induction a with
  | nil =>
    have hs : startsWith pat (pat ++ b) = true := by
      rw [startsWith_iff]; exact ⟨b, rfl⟩
    cases hpb : pat ++ b with
    | nil =>
      exact absurd (List.append_eq_nil.1 hpb).1 hpat
    | cons c rest =>
      simp only [List.nil_append]
      rw [hpb]
      unfold findSplit
      rw [hpb] at hs
      simp only [hs, if_true]
      rw [← hpb, List.drop_left]
  | cons c a' ih =>
    have hcons : (c :: a') ++ pat ++ b = c :: (a' ++ pat ++ b) := by simp
    rw [hcons]
    unfold findSplit
    have hnp : ¬ startsWith pat (c :: (a' ++ pat ++ b)) = true := by
      intro hp
      obtain ⟨t, ht⟩ := (startsWith_iff _ _).1 hp
      -- the occurrence at position 0 lies inside `(c :: a') ++ pat.dropLast`
      have hlen : pat.length ≤ ((c :: a') ++ pat.dropLast).length := by
        simp only [List.length_append, List.length_cons, List.length_dropLast]
        omega
      have hdecomp : c :: (a' ++ pat ++ b)
          = ((c :: a') ++ pat.dropLast) ++ (pat.getLast hpat :: b) := by
        have hpat' : pat.dropLast ++ [pat.getLast hpat] = pat :=
          List.dropLast_append_getLast hpat
        calc c :: (a' ++ pat ++ b) = (c :: a') ++ (pat ++ b) := by simp
          _ = (c :: a') ++ ((pat.dropLast ++ [pat.getLast hpat]) ++ b) := by rw [hpat']
          _ = ((c :: a') ++ pat.dropLast) ++ (pat.getLast hpat :: b) := by simp
      have htake : (c :: (a' ++ pat ++ b)).take pat.length = pat := by
        rw [ht, List.take_left]
      rw [hdecomp] at htake
      rw [List.take_append_of_le_length hlen] at htake
      have hsw : startsWith pat ((c :: a') ++ pat.dropLast) = true := by
        rw [startsWith_iff]
        exact ⟨((c :: a') ++ pat.dropLast).drop pat.length, by
          conv_lhs => rw [← List.take_append_drop pat.length ((c :: a') ++ pat.dropLast), htake]⟩
      have := contains_of_startsWith _ _ hsw
      rw [h] at this
      exact Bool.false_ne_true this
    simp only [hnp, if_false, Bool.false_eq_true]
    have h' : containsStr pat (a' ++ pat.dropLast) = false := by
      by_contra hne
      have : containsStr pat (a' ++ pat.dropLast) = true := by
        cases hc : containsStr pat (a' ++ pat.dropLast) with
        | true => rfl
        | false => exact absurd hc hne
      have := contains_cons pat _ c this
      have hrw : c :: (a' ++ pat.dropLast) = (c :: a') ++ pat.dropLast := by simp
      rw [hrw, h] at this
      exact Bool.false_ne_true this
    rw [ih h']

/-- `findSplit pat s = none` exactly when `pat` does not occur in `s`. -/
theorem findSplit_none_of_not_contains (pat s : Str) (h : containsStr pat s = false) :
    findSplit pat s = none := by
  unfold containsStr at h
  cases hs : findSplit pat s with
  | none => rfl
  | some pr => rw [hs] at h; simp at h

/-- Fuel irrelevance for `removeThinkAux`: any fuel at least the length
of the input computes the same result. -/
theorem removeThinkAux_congr (f : Nat) : ∀ (g : Nat) (s : Str),
    s.length ≤ f → s.length ≤ g → removeThinkAux f s = removeThinkAux g s := by
  induction f with
  | zero =>
    intro g s hf _
    have hs : s = [] := List.length_eq_zero.1 (Nat.le_zero.1 hf)
    subst hs
    cases g with
    | zero => rfl
    | succ g' =>
      show removeThinkAux 0 [] = removeThinkAux (g' + 1) []
      unfold removeThinkAux
      have : findSplit thinkOpen [] = none := by decide
      rw [this]
  | succ f' ih =>
    intro g s hf hg
    cases g with
    | zero =>
      have hs : s = [] := List.length_eq_zero.1 (Nat.le_zero.1 hg)
      subst hs
      show removeThinkAux (f' + 1) [] = removeThinkAux 0 []
      unfold removeThinkAux
      have : findSplit thinkOpen [] = none := by decide
      rw [this]
    | succ g' =>
      show removeThinkAux (f' + 1) s = removeThinkAux (g' + 1) s
      unfold removeThinkAux
      cases h1 : findSplit thinkOpen s with
      | none => rfl
      | some pr1 =>
        obtain ⟨pre, rest1⟩ := pr1
        cases h2 : findSplit thinkClose rest1 with
        | none => simp only [h2]
        | some pr2 =>
          obtain ⟨mid, rest2⟩ := pr2
          simp only [h2]
          have e1 := findSplit_eq _ _ _ _ h1
          have e2 := findSplit_eq _ _ _ _ h2
          have hlen : rest2.length + 15 ≤ s.length := by
            rw [e1, e2]
            simp only [List.length_append]
            have h7 : thinkOpen.length = 7 := by decide
            have h8 : thinkClose.length = 8 := by decide
            rw [h7, h8]
            omega
          have hrf : rest2.length ≤ f' := by omega
          have hrg : rest2.length ≤ g' := by omega
          rw [ih g' rest2 hrf hrg]

/-- Definitional one-step unfolding of the fueled worker. -/
theorem removeThinkAux_succ (n : Nat) (s : Str) :
    removeThinkAux (n + 1) s =
      match findSplit thinkOpen s with
      | none => s
      | some (pre, rest1) =>
        match findSplit thinkClose rest1 with
        | none => s
        | some (_, rest2) => pre ++ removeThinkAux n rest2 := rfl

/-- The one-step unfolding equation of `removeThink`. -/
theorem removeThink_eq (s : Str) :
    removeThink s =
      match findSplit thinkOpen s with
      | none => s
      | some (pre, rest1) =>
        match findSplit thinkClose rest1 with
        | none => s
        | some (_, rest2) => pre ++ removeThink rest2 := by
  cases h1 : findSplit thinkOpen s with
  | none =>
    simp only [h1]
    show removeThinkAux s.length s = s
    cases hl : s.length with
    | zero => rfl
    | succ n => rw [removeThinkAux_succ, h1]
  | some pr1 =>
    obtain ⟨pre, rest1⟩ := pr1
    simp only [h1]
    cases h2 : findSplit thinkClose rest1 with
    | none =>
      simp only [h2]
      show removeThinkAux s.length s = s
      cases hl : s.length with
      | zero => rfl
      | succ n => simp only [removeThinkAux_succ, h1, h2]
    | some pr2 =>
      obtain ⟨mid, rest2⟩ := pr2
      simp only [h2]
      show removeThinkAux s.length s = pre ++ removeThinkAux rest2.length rest2
      have e1 := findSplit_eq _ _ _ _ h1
      have e2 := findSplit_eq _ _ _ _ h2
      have hlen : rest2.length + 15 ≤ s.length := by
        rw [e1, e2]
        simp only [List.length_append]
        have h7 : thinkOpen.length = 7 := by decide
        have h8 : thinkClose.length = 8 := by decide
        rw [h7, h8]
        omega
      obtain ⟨n, hn⟩ : ∃ n, s.length = n + 1 := ⟨s.length - 1, by omega⟩
      rw [hn]
      simp only [removeThinkAux_succ, h1, h2]
      rw [removeThinkAux_congr n rest2.length rest2 (by omega) (Nat.le_refl _)]

/-- A string with no opening marker is left unchanged. -/
theorem removeThink_no_marker (s : Str) (h : containsStr thinkOpen s = false) :
    removeThink s = s := by
  rw [removeThink_eq, findSplit_none_of_not_contains _ _ h]

/-- Removing one explicitly delimited reasoning span: if `a` holds no
occurrence of the opening marker reaching into the explicit one, and `b`
holds no occurrence of the closing marker reaching into the explicit one,
the span `<think> b </think>` is deleted and processing continues on `c`. -/
theorem removeThink_span (a b c : Str)
    (ha : containsStr thinkOpen (a ++ thinkOpen.dropLast) = false)
    (hb : containsStr thinkClose (b ++ thinkClose.dropLast) = false) :
    removeThink (a ++ thinkOpen ++ b ++ thinkClose ++ c) = a ++ removeThink c := by
  have hshape : a ++ thinkOpen ++ b ++ thinkClose ++ c
      = a ++ thinkOpen ++ (b ++ thinkClose ++ c) := by simp
  rw [hshape, removeThink_eq]
  simp only [findSplit_at thinkOpen a (b ++ thinkClose ++ c) (by decide) ha,
    findSplit_at thinkClose b c (by decide) hb]

/-! ### Stripped strings and tag parsing -/

theorem head_dropWhile_not (l : Str) (c : Char)
    (h : (l.dropWhile isPySpace).head? = some c) : isPySpace c = false := by
  induction l with
  | nil => simp [List.dropWhile] at h
  | cons a t ih =>
    rw [List.dropWhile_cons] at h
    by_cases hpa : isPySpace a = true
    · rw [if_pos hpa] at h
      exact ih h
    · rw [if_neg hpa] at h
      have : a = c := by simpa using h
      subst this
      simpa using hpa

/-- The result of `pyStrip` has no trailing whitespace. -/
theorem pyStrip_noTrail (s : Str) :
    ∀ x, (pyStrip s).getLast? = some x → isPySpace x = false := by
  intro x hx
  unfold pyStrip at hx
  rw [List.getLast?_reverse] at hx
  exact head_dropWhile_not _ x hx

theorem getLast?_drop_of_ne (n : Nat) : ∀ (t : Str), t.drop n ≠ [] →
    (t.drop n).getLast? = t.getLast? := by
  induction n with
  | zero => intro t _; rw [List.drop_zero]
  | succ n ih =>
    intro t hne
    cases t with
    | nil => simp at hne
    | cons a r =>
      rw [List.drop_succ_cons] at hne ⊢
      have hr : r ≠ [] := by
        intro h
        subst h
        simp at hne
      rw [ih r hne]
      cases r with
      | nil => exact absurd rfl hr
      | cons b rb => rw [List.getLast?_cons_cons]

/-- For a string with no trailing whitespace, an all-whitespace suffix
must be empty. -/
theorem drop_all_space_nil (t : Str) (n : Nat)
    (hnt : ∀ x, t.getLast? = some x → isPySpace x = false)
    (h : (t.drop n).all isPySpace = true) : t.drop n = [] := by
  cases hd : t.drop n with
  | nil => rfl
  | cons a l =>
    exfalso
    have hne : t.drop n ≠ [] := by rw [hd]; simp
    have hlast : (t.drop n).getLast? = t.getLast? := getLast?_drop_of_ne n t hne
    have hgl : (a :: l).getLast? = some ((a :: l).getLast (by simp)) :=
      List.getLast?_eq_getLast _ _
    have hmem : (a :: l).getLast (by simp) ∈ a :: l := List.getLast_mem _
    have hsp : isPySpace ((a :: l).getLast (by simp)) = true := by
      rw [hd] at h
      exact List.all_eq_true.1 h _ hmem
    have hsome : t.getLast? = some ((a :: l).getLast (by simp)) := by
      rw [← hlast, hd]
      exact hgl
    have := hnt _ hsome
    rw [hsp] at this
    exact Bool.noConfusion this

theorem tagSearch_cons (c : Char) (rest : Str) :
    tagSearch (c :: rest) =
      if startsWith (str "[yes]") (lowerStr (c :: rest)) && ((c :: rest).drop 5).all isPySpace then
        some true
      else if startsWith (str "[no]") (lowerStr (c :: rest)) && ((c :: rest).drop 4).all isPySpace then
        some false
      else tagSearch rest := rfl

/-- Characterization of the regex scan on a right-trimmed string: the
verdict is `Yes` exactly when the lower-cased text ends with `[yes]`. -/
theorem tagSearch_yes_iff (t : Str)
    (hnt : ∀ x, t.getLast? = some x → isPySpace x = false) :
    tagSearch t = some true ↔ endsWith (str "[yes]") (lowerStr t) = true := by
  induction t with
  | nil =>
    constructor
    · intro h
      simp [tagSearch] at h
    · intro h
      obtain ⟨u, hu⟩ := (endsWith_iff _ _).1 h
      have := congrArg List.length hu
      simp [lowerStr, str] at this
  | cons c rest ih =>
    rw [tagSearch_cons]
    by_cases hc1 : (startsWith (str "[yes]") (lowerStr (c :: rest))
        && ((c :: rest).drop 5).all isPySpace) = true
    · rw [if_pos hc1]
      obtain ⟨hsw, hsp⟩ := Bool.and_eq_true .. ▸ hc1
      constructor
      · intro _
        have hnil : (c :: rest).drop 5 = [] := drop_all_space_nil _ 5 hnt hsp
        have hle : (c :: rest).length ≤ 5 := List.drop_eq_nil_iff.1 hnil
        obtain ⟨u, hu⟩ := (startsWith_iff _ _).1 hsw
        have hlen := congrArg List.length hu
        simp only [lowerStr, List.length_map, List.length_append] at hlen
        have hstr5 : (str "[yes]").length = 5 := by decide
        rw [hstr5] at hlen
        have hu0 : u = [] := List.length_eq_zero.1 (by omega)
        subst hu0
        rw [endsWith_iff]
        exact ⟨[], by simpa using hu⟩
      · intro _; rfl
    · rw [if_neg hc1]
      by_cases hc2 : (startsWith (str "[no]") (lowerStr (c :: rest))
          && ((c :: rest).drop 4).all isPySpace) = true
      · rw [if_pos hc2]
        obtain ⟨hsw, hsp⟩ := Bool.and_eq_true .. ▸ hc2
        constructor
        · intro h
          exact absurd h (by simp)
        · intro h
          exfalso
          have hnil : (c :: rest).drop 4 = [] := drop_all_space_nil _ 4 hnt hsp
          have hle : (c :: rest).length ≤ 4 := List.drop_eq_nil_iff.1 hnil
          obtain ⟨u, hu⟩ := (endsWith_iff _ _).1 h
          have hlen := congrArg List.length hu
          simp only [lowerStr, List.length_map, List.length_append] at hlen
          have hstr5 : (str "[yes]").length = 5 := by decide
          rw [hstr5] at hlen
          omega
      · rw [if_neg hc2]
        cases rest with
        | nil =>
          constructor
          · intro h
            simp [tagSearch] at h
          · intro h
            exfalso
            obtain ⟨u, hu⟩ := (endsWith_iff _ _).1 h
            have hlen := congrArg List.length hu
            simp only [lowerStr, List.length_map, List.length_cons, List.length_nil,
              List.length_append] at hlen
            have hstr5 : (str "[yes]").length = 5 := by decide
            rw [hstr5] at hlen
            omega
        | cons r rest' =>
          have hnt' : ∀ x, (r :: rest').getLast? = some x → isPySpace x = false := by
            intro x hx
            apply hnt
            rw [List.getLast?_cons_cons]
            exact hx
          rw [ih hnt']
          constructor
          · intro h
            obtain ⟨u, hu⟩ := (endsWith_iff _ _).1 h
            rw [endsWith_iff]
            refine ⟨lowerChar c :: u, ?_⟩
            have hu' : lowerChar r :: List.map lowerChar rest' = u ++ str "[yes]" := by
              simpa [lowerStr] using hu
            simp [lowerStr, hu']
          · intro h
            obtain ⟨u, hu⟩ := (endsWith_iff _ _).1 h
            cases u with
            | nil =>
              exfalso
              apply hc1
              have heq : lowerStr (c :: r :: rest') = str "[yes]" := by simpa using hu
              have hsw : startsWith (str "[yes]") (lowerStr (c :: r :: rest')) = true := by
                rw [startsWith_iff]
                exact ⟨[], by simp [heq]⟩
              have hlc : (c :: r :: rest').length = 5 := by
                have h1 : (lowerStr (c :: r :: rest')).length = (str "[yes]").length := by
                  rw [heq]
                rw [(by decide : (str "[yes]").length = 5)] at h1
                simpa [lowerStr] using h1
              have hdrop : (c :: r :: rest').drop 5 = [] :=
                List.drop_eq_nil_iff.2 (by rw [hlc])
              rw [hsw, hdrop]
              rfl
            | cons d u' =>
              rw [endsWith_iff]
              refine ⟨u', ?_⟩
              have : lowerChar c :: lowerStr (r :: rest') = d :: (u' ++ str "[yes]") := by
                simpa [lowerStr] using hu
              exact (List.cons.injEq .. ▸ this).2

/-- `parseVerdict` in closed form: the verdict is the case-insensitive
`[yes]`-suffix test on the stripped text (both `[no]` and a missing tag
give `false`). -/
theorem parseVerdict_eq (content : Str) :
    parseVerdict content = endsWith (str "[yes]") (lowerStr (pyStrip content)) := by
  unfold parseVerdict
  have hiff := tagSearch_yes_iff (pyStrip content) (pyStrip_noTrail content)
  cases hts : tagSearch (pyStrip content) with
  | none =>
    cases he : endsWith (str "[yes]") (lowerStr (pyStrip content)) with
    | false => rfl
    | true =>
      exfalso
      have := hiff.2 he
      rw [hts] at this
      exact Option.noConfusion this
  | some b =>
    cases b with
    | true => exact (hiff.1 hts).symm
    | false =>
      cases he : endsWith (str "[yes]") (lowerStr (pyStrip content)) with
      | false => rfl
      | true =>
        exfalso
        have := hiff.2 he
        rw [hts] at this
        have := Option.some.injEq .. ▸ this
        exact Bool.false_ne_true this

/-- A text cannot end with both `[no]` and `[yes]`. -/
theorem not_no_and_yes (t : Str) (hno : endsWith (str "[no]") t = true)
    (hyes : endsWith (str "[yes]") t = true) : False := by
  obtain ⟨u, hu⟩ := (endsWith_iff _ _).1 hno
  obtain ⟨v, hv⟩ := (endsWith_iff _ _).1 hyes
  have hsplit : str "[yes]" = ['['] ++ str "yes]" := by decide
  rw [hsplit] at hv
  have hv' : t = (v ++ ['[']) ++ str "yes]" := by rw [hv]; simp
  have heq : u ++ str "[no]" = (v ++ ['[']) ++ str "yes]" := by rw [← hu, ← hv']
  have hlen : (str "[no]").length = (str "yes]").length := by decide
  have := (List.append_inj' heq hlen).2
  exact absurd this (by decide)

/-! ### The retrieval loop and request-isolation infrastructure -/

/-- The imperative `results_list` loop equals filtering the enumerated
items by the retention test and formatting each, in order. -/
theorem formatLoop_enumFrom (items : List SearchItem) : ∀ n : Nat,
    formatLoop n items
      = ((List.enumFrom n items).filter (fun p => retained p.2)).map
          (fun p => formatItem p.1 p.2) := by
  induction items with
  | nil => intro n; rfl
  | cons it rest ih =>
    intro n
    rw [List.enumFrom_cons]
    by_cases hr : retained it = true
    · simp only [formatLoop, hr, if_true, List.filter_cons, List.map_cons]
      rw [ih (n + 1)]
    · simp only [formatLoop, hr, if_false, Bool.false_eq_true, List.filter_cons]
      rw [ih (n + 1)]

/-- `call_llm` only consults the backends at the given message list. -/
theorem call_llm_congr (w w' : LLMWorld) (msgs : List Message) (mn p : Str)
    (h : agreeOn w w' msgs) : call_llm w msgs mn p = call_llm w' msgs mn p := by
  unfold call_llm
  by_cases h1 : p = str "ollama"
  · rw [if_pos h1, if_pos h1, (h mn).1]
  · rw [if_neg h1, if_neg h1]
    by_cases h2 : p = str "lm_studio"
    · rw [if_pos h2, if_pos h2, (h mn).2]
    · rw [if_neg h2, if_neg h2]

theorem formatLoop_nil_of (items : List SearchItem)
    (h : ∀ it ∈ items, retained it = false) : ∀ n, formatLoop n items = [] := by
  induction items with
  | nil => intro n; rfl
  | cons it rest ih =>
    intro n
    have hr : retained it = false := h it (by simp)
    have h' : ∀ i ∈ rest, retained i = false := fun i hi => h i (by simp [hi])
    simp only [formatLoop, hr, Bool.false_eq_true, if_false]
    exact ih h' (n + 1)

theorem formatLoop_ne_nil (items : List SearchItem)
    (h : items.any retained = true) : ∀ n, formatLoop n items ≠ [] := by
  induction items with
  | nil => simp at h
  | cons it rest ih =>
    intro n
    by_cases hr : retained it = true
    · simp [formatLoop, hr]
    · have h' : rest.any retained = true := by
        have := List.any_cons .. ▸ h
        rcases Bool.or_eq_true .. ▸ this with h1 | h2
        · exact absurd h1 hr
        · exact h2
      simp only [formatLoop, hr, Bool.false_eq_true, if_false]
      exact ih h' (n + 1)

/-! ### Claim theorems -/

/-- Claim C2: the sufficiency evaluation returns `true` iff the
(whitespace-trimmed) evaluation output ends with the tag `[Yes]`, matched
case-insensitively; an output ending in `[No]`, or in neither tag, yields
`false` rather than raising (conservative default-insufficient policy). -/
theorem claim_C2_evaluator_verdict (c question response mn : Str) :
    submit_for_evaluation (constWorld c) question response mn (str "ollama")
      = Except.ok (endsWith (str "[yes]") (lowerStr (pyStrip (cleanLLM c))))
    ∧ (endsWith (str "[no]") (lowerStr (pyStrip (cleanLLM c))) = true →
        submit_for_evaluation (constWorld c) question response mn (str "ollama")
          = Except.ok false) := by
  have hmain : submit_for_evaluation (constWorld c) question response mn (str "ollama")
      = Except.ok (parseVerdict (cleanLLM c)) := rfl
  rw [hmain, parseVerdict_eq]
  constructor
  · rfl
  · intro hno
    cases hy : endsWith (str "[yes]") (lowerStr (pyStrip (cleanLLM c))) with
    | false => rfl
    | true => exact (not_no_and_yes _ hno hy).elim

theorem claim_C2_evaluator_verdict_witness :
    submit_for_evaluation (constWorld (str "fine.\n[Yes]")) (str "q") (str "a") (str "m")
        (str "ollama")
      = Except.ok (endsWith (str "[yes]")
          (lowerStr (pyStrip (cleanLLM (str "fine.\n[Yes]")))))
    ∧ submit_for_evaluation (constWorld (str "bad.\n[No]")) (str "q") (str "a") (str "m")
        (str "ollama")
      = Except.ok false :=
  ⟨(claim_C2_evaluator_verdict (str "fine.\n[Yes]") (str "q") (str "a") (str "m")).1,
   (claim_C2_evaluator_verdict (str "bad.\n[No]") (str "q") (str "a") (str "m")).2
     (by decide)⟩

/-- Claim C4 counterexample: an unrecognized provider name given to the
Language Model Gateway is rejected with an `Unsupported LLM provider`
error — it is not silently defaulted to a fallback backend, refuting the
claim as stated for the provider half. -/
theorem claim_C4_counterexample :
    call_llm stubWorld [{ role := str "user", content := str "hi" }] (str "m") (str "openai")
      = Except.error (str "Unsupported LLM provider: openai") := rfl

/-- Claim C4 (amended): an unrecognized search-engine name silently
defaults to the fixed Google backend, but an unrecognized provider name
given to the Language Model Gateway raises an unsupported-provider error
instead of defaulting. -/
theorem claim_C4_amended_behavior (name p : Str)
    (hg : name ≠ str "google") (hb : name ≠ str "bing") (hy : name ≠ str "yahoo")
    (hd : name ≠ str "duckduckgo") (hbr : name ≠ str "brave")
    (ho : p ≠ str "ollama") (hl : p ≠ str "lm_studio") :
    selectEngine name = Engine.google
    ∧ ∀ (w : LLMWorld) (msgs : List Message) (mn : Str),
        call_llm w msgs mn p = Except.error (str "Unsupported LLM provider: " ++ p) := by
  constructor
  · unfold selectEngine
    rw [if_neg hg, if_neg hb, if_neg hy, if_neg hd, if_neg hbr]
  · intro w msgs mn
    unfold call_llm
    rw [if_neg ho, if_neg hl]

theorem claim_C4_amended_behavior_witness :
    selectEngine (str "altavista") = Engine.google
    ∧ call_llm stubWorld [] (str "m") (str "openai")
        = Except.error (str "Unsupported LLM provider: " ++ str "openai") :=
  ⟨(claim_C4_amended_behavior (str "altavista") (str "openai") (by decide) (by decide)
      (by decide) (by decide) (by decide) (by decide) (by decide)).1,
   (claim_C4_amended_behavior (str "altavista") (str "openai") (by decide) (by decide)
      (by decide) (by decide) (by decide) (by decide) (by decide)).2 stubWorld [] (str "m")⟩

/-- Claim C6: the Result Summarizer hard-truncates its input to
`max_input_length` characters and appends the truncation marker whenever
the input exceeds that length; for shorter input no marker is appended
and the full text is embedded unchanged in the prompt sent to the model. -/
theorem claim_C6_summarizer_truncation (raw q : Str) (max_length : Nat) :
    (max_length < raw.length →
      summarizeInput raw max_length = raw.take max_length ++ truncMarker
      ∧ (raw.take max_length).length = max_length
      ∧ summarizePrompt raw q max_length
          = summTemplate q ++ str "\n\nSearch Results to Summarize:\n"
            ++ (raw.take max_length ++ truncMarker))
  ∧ (raw.length < max_length →
      summarizeInput raw max_length = raw
      ∧ summarizePrompt raw q max_length
          = summTemplate q ++ str "\n\nSearch Results to Summarize:\n" ++ raw) := by
  constructor
  · intro h
    have h1 : summarizeInput raw max_length = raw.take max_length ++ truncMarker := by
      unfold summarizeInput
      rw [if_pos h]
    refine ⟨h1, ?_, ?_⟩
    · rw [List.length_take]
      exact Nat.min_eq_left (Nat.le_of_lt h)
    · unfold summarizePrompt
      rw [h1]
  · intro h
    have h1 : summarizeInput raw max_length = raw := by
      unfold summarizeInput
      rw [if_neg (by omega)]
    refine ⟨h1, ?_⟩
    unfold summarizePrompt
    rw [h1]

theorem claim_C6_summarizer_truncation_witness :
    (summarizeInput (str "abcdef") 3 = (str "abcdef").take 3 ++ truncMarker
      ∧ ((str "abcdef").take 3).length = 3
      ∧ summarizePrompt (str "abcdef") (str "q") 3
          = summTemplate (str "q") ++ str "\n\nSearch Results to Summarize:\n"
            ++ ((str "abcdef").take 3 ++ truncMarker))
    ∧ (summarizeInput (str "abcdef") 10 = str "abcdef"
      ∧ summarizePrompt (str "abcdef") (str "q") 10
          = summTemplate (str "q") ++ str "\n\nSearch Results to Summarize:\n"
            ++ str "abcdef") :=
  ⟨(claim_C6_summarizer_truncation (str "abcdef") (str "q") 3).1 (by decide),
   (claim_C6_summarizer_truncation (str "abcdef") (str "q") 10).2 (by decide)⟩

/-- Claim C7: if the generation call inside the Result Summarizer raises,
the Summarizer catches it locally and returns the first 500 characters of
the raw input, with an ellipsis appended when the input was longer than
500 characters; being a total function, it never propagates the
exception (stated for any `max_input_length ≥ 500`, which covers the
source default 1500). -/
theorem claim_C7_summarizer_fallback (w : LLMWorld) (raw q mn p : Str)
    (max_length : Nat) (e : Str) (h5 : 500 ≤ max_length)
    (herr : call_llm w [{ role := str "user", content := summarizePrompt raw q max_length }]
              mn p = Except.error e) :
    summarize_search_results w raw q mn p max_length
      = if 500 < raw.length then raw.take 500 ++ str "..." else raw := by
  unfold summarize_search_results
  rw [herr]
  have hmarker : truncMarker.length = 28 := by decide
  by_cases hlen : max_length < raw.length
  · have h1 : summarizeInput raw max_length = raw.take max_length ++ truncMarker := by
      unfold summarizeInput
      rw [if_pos hlen]
    rw [h1]
    have hml : (raw.take max_length ++ truncMarker).length = max_length + 28 := by
      rw [List.length_append, List.length_take, Nat.min_eq_left (Nat.le_of_lt hlen), hmarker]
    rw [hml, if_pos (by omega : 500 < max_length + 28),
      if_pos (by omega : 500 < raw.length)]
    rw [List.take_append_of_le_length (by rw [List.length_take]; omega)]
    rw [List.take_take, Nat.min_eq_left h5]
  · have h1 : summarizeInput raw max_length = raw := by
      unfold summarizeInput
      rw [if_neg hlen]
    rw [h1]

theorem claim_C7_summarizer_fallback_witness :
    summarize_search_results stubWorld (str "r") (str "q") (str "m") (str "openai") 1500
      = if 500 < (str "r").length then (str "r").take 500 ++ str "..." else str "r" :=
  claim_C7_summarizer_fallback stubWorld (str "r") (str "q") (str "m") (str "openai") 1500
    (str "Unsupported LLM provider: openai") (by decide) rfl

/-- Claim C8: the Language Model Gateway post-processing removes every
contiguous span delimited by the `<think>`/`</think>` marker pair
(leftmost, non-greedy, spanning newlines) and then trims whitespace; the
text outside the removed spans is kept unaltered (second conjunct: a text
with no opening marker passes through span removal unchanged). -/
theorem claim_C8_think_removal (a b c : Str)
    (ha : containsStr thinkOpen (a ++ thinkOpen.dropLast) = false)
    (hb : containsStr thinkClose (b ++ thinkClose.dropLast) = false) :
    cleanLLM (a ++ thinkOpen ++ b ++ thinkClose ++ c) = pyStrip (a ++ removeThink c)
    ∧ removeThink a = a := by
  have hnoa : containsStr thinkOpen a = false := by
    cases hca : containsStr thinkOpen a with
    | false => rfl
    | true =>
      exfalso
      have := contains_append_right thinkOpen a thinkOpen.dropLast hca
      rw [ha] at this
      exact Bool.noConfusion this
  constructor
  · unfold cleanLLM
    rw [removeThink_span a b c ha hb]
  · exact removeThink_no_marker a hnoa

theorem claim_C8_think_removal_witness :
    cleanLLM (str "Hello " ++ thinkOpen ++ str "ponder" ++ thinkClose
        ++ str " world<think>x</think>!")
      = pyStrip (str "Hello " ++ removeThink (str " world<think>x</think>!"))
    ∧ removeThink (str "Hello ") = str "Hello " :=
  claim_C8_think_removal (str "Hello ") (str "ponder") (str " world<think>x</think>!")
    (by decide) (by decide)

/-- Claim C3: the Retrieval Gateway has exactly three failure outcomes,
each returned as plain text, never a raised exception (the function is
total): zero raw items gives the "no results found" message containing
the query; non-empty raw items with none retained gives the "no usable
text content" message containing the query; a raised backend exception
gives the "not able to receive search service" message. -/
theorem claim_C3_retrieval_failure_outcomes (sw : SearchWorld) (q en : Str) :
    (sw.search (selectEngine en) q NUM_OF_PAGES = Except.ok [] →
      search_on_the_web sw q en
        = str "No results found by " ++ en ++ str " for the query: \x27" ++ q ++ str "\x27"
      ∧ containsStr q (search_on_the_web sw q en) = true
      ∧ containsStr (str "No results found") (search_on_the_web sw q en) = true)
  ∧ (∀ items, sw.search (selectEngine en) q NUM_OF_PAGES = Except.ok items → items ≠ [] →
      (∀ it ∈ items, retained it = false) →
      search_on_the_web sw q en
        = str "Search returned results, but no usable text content (title, snippet, link) could be extracted for query: \x27"
          ++ q ++ str "\x27 with " ++ en ++ str "."
      ∧ containsStr q (search_on_the_web sw q en) = true
      ∧ containsStr (str "no usable text content") (search_on_the_web sw q en) = true)
  ∧ (∀ e, sw.search (selectEngine en) q NUM_OF_PAGES = Except.error e →
      search_on_the_web sw q en
        = str "Not able to receive search service: " ++ en
          ++ str " results due to an error. Query: \x27" ++ q ++ str "\x27"
      ∧ containsStr (str "Not able to receive search service")
          (search_on_the_web sw q en) = true) := by
  refine ⟨?_, ?_, ?_⟩
  · intro hok
    have hmsg : search_on_the_web sw q en
        = str "No results found by " ++ en ++ str " for the query: \x27" ++ q ++ str "\x27" := by
      unfold search_on_the_web
      rw [hok]
      rfl
    refine ⟨hmsg, ?_, ?_⟩
    · rw [hmsg]
      exact contains_parts q (str "No results found by " ++ en ++ str " for the query: \x27")
        (str "\x27")
    · rw [hmsg]
      have hdecomp : str "No results found by " = str "No results found" ++ str " by " := by
        decide
      have base : containsStr (str "No results found") (str "No results found by ") = true := by
        decide
      have s1 := contains_append_right _ _ en base
      have s2 := contains_append_right _ _ (str " for the query: \x27") s1
      have s3 := contains_append_right _ _ q s2
      exact contains_append_right _ _ (str "\x27") s3
  · intro items hok hne hdrop
    have hie : items.isEmpty = false := by
      cases items with
      | nil => exact absurd rfl hne
      | cons a b => rfl
    have hfl : formatLoop 0 items = [] := formatLoop_nil_of items hdrop 0
    have hmsg : search_on_the_web sw q en
        = str "Search returned results, but no usable text content (title, snippet, link) could be extracted for query: \x27"
          ++ q ++ str "\x27 with " ++ en ++ str "." := by
      unfold search_on_the_web
      rw [hok]
      simp only [hie, Bool.false_eq_true, if_false, hfl, List.isEmpty_nil, if_true]
    refine ⟨hmsg, ?_, ?_⟩
    · rw [hmsg]
      have := contains_parts q
        (str "Search returned results, but no usable text content (title, snippet, link) could be extracted for query: \x27")
        (str "\x27 with " ++ en ++ str ".")
      have hassoc : str "Search returned results, but no usable text content (title, snippet, link) could be extracted for query: \x27"
          ++ q ++ (str "\x27 with " ++ en ++ str ".")
          = str "Search returned results, but no usable text content (title, snippet, link) could be extracted for query: \x27"
            ++ q ++ str "\x27 with " ++ en ++ str "." := by
        simp
      rw [hassoc] at this
      exact this
    · rw [hmsg]
      have base : containsStr (str "no usable text content")
          (str "Search returned results, but no usable text content (title, snippet, link) could be extracted for query: \x27")
          = true := by decide
      have s1 := contains_append_right _ _ q base
      have s2 := contains_append_right _ _ (str "\x27 with ") s1
      have s3 := contains_append_right _ _ en s2
      exact contains_append_right _ _ (str ".") s3
  · intro e herr
    have hmsg : search_on_the_web sw q en
        = str "Not able to receive search service: " ++ en
          ++ str " results due to an error. Query: \x27" ++ q ++ str "\x27" := by
      unfold search_on_the_web
      rw [herr]
    refine ⟨hmsg, ?_⟩
    rw [hmsg]
    have base : containsStr (str "Not able to receive search service")
        (str "Not able to receive search service: ") = true := by decide
    have s1 := contains_append_right _ _ en base
    have s2 := contains_append_right _ _ (str " results due to an error. Query: \x27") s1
    have s3 := contains_append_right _ _ q s2
    exact contains_append_right _ _ (str "\x27") s3

theorem claim_C3_retrieval_failure_outcomes_witness :
    (search_on_the_web stubSearchEmpty (str "qq") (str "google")
      = str "No results found by " ++ str "google" ++ str " for the query: \x27"
        ++ str "qq" ++ str "\x27")
    ∧ (search_on_the_web stubSearchNoSnippet (str "qq") (str "google")
      = str "Search returned results, but no usable text content (title, snippet, link) could be extracted for query: \x27"
        ++ str "qq" ++ str "\x27 with " ++ str "google" ++ str ".")
    ∧ (search_on_the_web stubSearchRaise (str "qq") (str "google")
      = str "Not able to receive search service: " ++ str "google"
        ++ str " results due to an error. Query: \x27" ++ str "qq" ++ str "\x27") :=
  ⟨((claim_C3_retrieval_failure_outcomes stubSearchEmpty (str "qq") (str "google")).1 rfl).1,
   ((claim_C3_retrieval_failure_outcomes stubSearchNoSnippet (str "qq") (str "google")).2.1
      _ rfl (by decide) (by decide)).1,
   ((claim_C3_retrieval_failure_outcomes stubSearchRaise (str "qq") (str "google")).2.2
      (str "boom") rfl).1⟩

/-- Claim C9: for a non-empty raw item list with at least one usable
item, an item is retained exactly when its extracted snippet is present
and is not the placeholder, and the output is the retained items
formatted as `Source N`/Title/URL/Snippet blocks joined by a blank line,
numbered by raw position, in original order (the loop equals
filter-then-map over the enumerated list). -/
theorem claim_C9_retention_and_format (sw : SearchWorld) (q en : Str)
    (items : List SearchItem)
    (hok : sw.search (selectEngine en) q NUM_OF_PAGES = Except.ok items)
    (hne : items ≠ [])
    (hret : items.any retained = true) :
    search_on_the_web sw q en
      = List.intercalate (str "\n\n")
          (((List.enumFrom 0 items).filter (fun p => retained p.2)).map
            (fun p => formatItem p.1 p.2))
    ∧ ∀ (n : Nat) (its : List SearchItem),
        formatLoop n its
          = ((List.enumFrom n its).filter (fun p => retained p.2)).map
              (fun p => formatItem p.1 p.2) := by
  constructor
  · have hie : items.isEmpty = false := by
      cases items with
      | nil => exact absurd rfl hne
      | cons a b => rfl
    have h2 : (formatLoop 0 items).isEmpty = false := by
      cases hfl : formatLoop 0 items with
      | nil => exact absurd hfl (formatLoop_ne_nil items hret 0)
      | cons x xs => rfl
    unfold search_on_the_web
    rw [hok]
    simp only [hie, Bool.false_eq_true, if_false, h2]
    rw [formatLoop_enumFrom items 0]
  · intro n its
    exact formatLoop_enumFrom its n

theorem claim_C9_retention_and_format_witness :
    search_on_the_web stubSearchMixed (str "qq") (str "google")
      = List.intercalate (str "\n\n")
          (((List.enumFrom 0 [itemWithSnippet, itemNoSnippet]).filter
              (fun p => retained p.2)).map (fun p => formatItem p.1 p.2)) :=
  (claim_C9_retention_and_format stubSearchMixed (str "qq") (str "google")
    [itemWithSnippet, itemNoSnippet] rfl (by decide) (by decide)).1

/-- Claim C5: after one successful call of the orchestrator's
turn-processing method on input `x`, the new conversation is exactly the
old one with `{user, x}` and then `{assistant, result}` appended — prior
turns unchanged and in their original order. -/
theorem claim_C5_conversation_frame (w : LLMWorld) (sw : SearchWorld) (o : OracleState)
    (x ans : Str) (o' : OracleState)
    (h : get_response w sw o x = Except.ok (ans, o')) :
    o'.messages = o.messages
      ++ [{ role := str "user", content := x },
          { role := str "assistant", content := ans }] := by
  unfold get_response at h
  split at h
  · exact Except.noConfusion h
  · split at h
    · injection h with hpair
      injection hpair with h1 h2
      subst h1
      subst h2
      rfl
    · split at h
      · exact Except.noConfusion h
      · split at h
        · injection h with hpair
          injection hpair with h1 h2
          subst h1
          subst h2
          rfl
        · split at h
          · exact Except.noConfusion h
          · split at h
            · exact Except.noConfusion h
            · injection h with hpair
              injection hpair with h1 h2
              subst h1
              subst h2
              rfl

theorem claim_C5_conversation_frame_witness :
    stubOracleNoSearchFinal.messages
      = stubOracleNoSearch.messages
        ++ [{ role := str "user", content := str "hi" },
            { role := str "assistant", content := str "direct-answer" }] :=
  claim_C5_conversation_frame stubWorld stubSearchNoSnippet stubOracleNoSearch
    (str "hi") (str "direct-answer") stubOracleNoSearchFinal rfl

/-- Claim C10: every auxiliary stage (evaluation, refinement,
summarization, grounded synthesis) sends the model a freshly built
one-message list holding only that stage's own prompt; consequently each
stage's result depends only on the backends' behaviour at that single
request, so sessions with different histories but identical stage inputs
issue the identical model request. -/
theorem claim_C10_stage_request_isolation (w w' : LLMWorld)
    (question response user_input search_result information_needed raw q mn p : Str)
    (max_length : Nat) :
    (agreeOn w w' [{ role := str "user", content := evalPrompt question response }] →
      submit_for_evaluation w question response mn p
        = submit_for_evaluation w' question response mn p)
  ∧ (agreeOn w w' [{ role := str "user", content := refactorPrompt user_input }] →
      refactor_search_input w user_input mn p = refactor_search_input w' user_input mn p)
  ∧ (agreeOn w w' [{ role := str "user", content := summarizePrompt raw q max_length }] →
      summarize_search_results w raw q mn p max_length
        = summarize_search_results w' raw q mn p max_length)
  ∧ (agreeOn w w'
      [{ role := str "user", content := processPrompt information_needed search_result }] →
      process_search_result_with_llm w search_result information_needed mn p
        = process_search_result_with_llm w' search_result information_needed mn p) := by
  refine ⟨?_, ?_, ?_, ?_⟩ <;> intro hag
  · unfold submit_for_evaluation
    rw [call_llm_congr w w' _ mn p hag]
  · unfold refactor_search_input
    rw [call_llm_congr w w' _ mn p hag]
  · unfold summarize_search_results
    rw [call_llm_congr w w' _ mn p hag]
  · unfold process_search_result_with_llm
    exact call_llm_congr w w' _ mn p hag

theorem claim_C10_stage_request_isolation_witness :
    (submit_for_evaluation (constWorld (str "x")) (str "q") (str "a") (str "m") (str "ollama")
      = submit_for_evaluation singletonWorld (str "q") (str "a") (str "m") (str "ollama"))
    ∧ (refactor_search_input (constWorld (str "x")) (str "u") (str "m") (str "ollama")
      = refactor_search_input singletonWorld (str "u") (str "m") (str "ollama"))
    ∧ (summarize_search_results (constWorld (str "x")) (str "raw") (str "q") (str "m")
        (str "ollama") 1500
      = summarize_search_results singletonWorld (str "raw") (str "q") (str "m")
        (str "ollama") 1500)
    ∧ (process_search_result_with_llm (constWorld (str "x")) (str "s") (str "n") (str "m")
        (str "ollama")
      = process_search_result_with_llm singletonWorld (str "s") (str "n") (str "m")
        (str "ollama")) :=
  ⟨(claim_C10_stage_request_isolation (constWorld (str "x")) singletonWorld (str "q")
      (str "a") (str "u") (str "s") (str "n") (str "raw") (str "q") (str "m")
      (str "ollama") 1500).1 (fun _ => ⟨rfl, rfl⟩),
   (claim_C10_stage_request_isolation (constWorld (str "x")) singletonWorld (str "q")
      (str "a") (str "u") (str "s") (str "n") (str "raw") (str "q") (str "m")
      (str "ollama") 1500).2.1 (fun _ => ⟨rfl, rfl⟩),
   (claim_C10_stage_request_isolation (constWorld (str "x")) singletonWorld (str "q")
      (str "a") (str "u") (str "s") (str "n") (str "raw") (str "q") (str "m")
      (str "ollama") 1500).2.2.1 (fun _ => ⟨rfl, rfl⟩),
   (claim_C10_stage_request_isolation (constWorld (str "x")) singletonWorld (str "q")
      (str "a") (str "u") (str "s") (str "n") (str "raw") (str "q") (str "m")
      (str "ollama") 1500).2.2.2 (fun _ => ⟨rfl, rfl⟩)⟩

set_option maxRecDepth 8000 in
/-- Claim C1 (code-bug demonstration): a turn in which the evaluator
returns `false` and the Retrieval Gateway returns its "no usable text
content" sentinel.  The orchestrator checks the phrase
`no text content could be extracted`, which does not occur in that
sentinel, so instead of falling back to the direct answer
(`direct-answer`) it runs the Summarizer and Synthesizer and returns the
synthesized answer (`synth-out`), contradicting the claim and spec §8. -/
theorem claim_C1_fallback_code_bug_run :
    search_on_the_web stubSearchNoSnippet (str "refined") (str "google")
      = str "Search returned results, but no usable text content (title, snippet, link) could be extracted for query: \x27refined\x27 with google."
    ∧ containsStr (str "no text content could be extracted")
        (search_on_the_web stubSearchNoSnippet (str "refined") (str "google")) = false
    ∧ call_llm stubWorld [{ role := str "user", content := str "q" }] (str "m")
        (str "ollama") = Except.ok (str "direct-answer")
    ∧ submit_for_evaluation stubWorld (str "q") (str "direct-answer") (str "m")
        (str "ollama") = Except.ok false
    ∧ get_response stubWorld stubSearchNoSnippet stubOracleSearch (str "q")
      = Except.ok (str "synth-out",
          { model_name := str "m", llm_provider := str "ollama",
            search_engine := some (str "google"),
            messages := [{ role := str "user", content := str "q" },
                         { role := str "assistant", content := str "synth-out" }] })
    ∧ str "synth-out" ≠ str "direct-answer" :=
  ⟨rfl, by decide, rfl, rfl, rfl, by decide⟩

end OracleCore
